import Mathlib

/-!
# SurfCheck data pipeline — verification of `scripts/fetch_forecast.py`

Shallow embedding of the data-acquisition-and-normalization core of the
SurfCheck repository.  Numeric values are modelled as rationals (`ℚ`),
built through `mkRat` so that every model function evaluates inside the
kernel; Python's `None` becomes `Option`; text lines are given as
`List String` (the result of `text.strip().splitlines()`), and Python's
`str.split()` is modelled by `pySplit`.
-/

namespace SurfCheck

/-- Whitespace test used by Python's no-argument `str.split()`. -/
def isSpace (c : Char) : Bool :=
  c = ' ' || c = '\t' || c = '\n' || c = '\r' || c = '\x0b' || c = '\x0c'

/-- Accumulator-based splitter over characters: splits on runs of
whitespace and drops empty fields, like Python's `str.split()`. -/
def splitWsAux (cs : List Char) (acc : List Char) : List (List Char) :=
  match cs with
  | [] => if acc = [] then [] else [acc.reverse]
  | c :: rest =>
    if isSpace c then
      if acc = [] then splitWsAux rest []
      else acc.reverse :: splitWsAux rest []
    else splitWsAux rest (c :: acc)

/-- Python `s.split()` (no separator: split on whitespace, drop empties). -/
def pySplit (s : String) : List String :=
  (splitWsAux s.data []).map String.mk

/-- Numeric value of a digit string (most significant first). -/
def digitsToNat (cs : List Char) : ℕ :=
  cs.foldl (fun a c => 10 * a + (c.toNat - 48)) 0

/-- The rational denoted by `[sign] ip . fp` for digit strings `ip`, `fp`. -/
def decToRat (sgn : ℤ) (ip fp : List Char) : ℚ :=
  mkRat (sgn * ((digitsToNat ip : ℤ) * 10 ^ fp.length + (digitsToNat fp : ℤ)))
    (10 ^ fp.length)

/-- Scale `x` by `10 ^ e` (`esgn = true` for a negative exponent). -/
def applyExp (x : ℚ) (esgn : Bool) (e : ℕ) : ℚ :=
  if esgn then mkRat x.num (x.den * 10 ^ e) else mkRat (x.num * 10 ^ e) x.den

/-- Exponent suffix of a float literal: `[+|-] digits`, consuming the
whole remaining input. -/
def parseExpSuffix (mant : ℚ) (cs : List Char) : Option ℚ :=
  let p : Bool × List Char :=
    match cs with
    | '-' :: r => (true, r)
    | '+' :: r => (false, r)
    | r => (false, r)
  let ed := p.2.takeWhile Char.isDigit
  if ed = [] ∨ p.2.dropWhile Char.isDigit ≠ [] then none
  else some (applyExp mant p.1 (digitsToNat ed))

/-- Model of Python's `float(·)` on decimal literals:
`[+|-] (digits [. digits] | . digits) [(e|E) [+|-] digits]`, the whole
string consumed; anything else fails (`ValueError`). -/
def pyFloat? (s : String) : Option ℚ :=
  let p : ℤ × List Char :=
    match s.data with
    | '-' :: r => (-1, r)
    | '+' :: r => (1, r)
    | r => (1, r)
  let ip := p.2.takeWhile Char.isDigit
  match p.2.dropWhile Char.isDigit with
  | [] => if ip = [] then none else some (decToRat p.1 ip [])
  | '.' :: cs3 =>
    let fp := cs3.takeWhile Char.isDigit
    if ip = [] ∧ fp = [] then none
    else
      match cs3.dropWhile Char.isDigit with
      | [] => some (decToRat p.1 ip fp)
      | e :: cs5 =>
        if e = 'e' ∨ e = 'E' then parseExpSuffix (decToRat p.1 ip fp) cs5 else none
  | e :: cs5 =>
    if (e = 'e' ∨ e = 'E') ∧ ip ≠ [] then
      parseExpSuffix (decToRat p.1 ip []) cs5
    else none

/-- Round `m / d` (with `d > 0`) to the nearest integer, ties to the even
integer — the rule of Python's builtin `round`. -/
def roundHalfEvenFrac (m : ℤ) (d : ℕ) : ℤ :=
  let f := Int.fdiv m d
  let r2 := 2 * (m - f * d)
  if r2 < (d : ℤ) then f
  else if r2 > (d : ℤ) then f + 1
  else if f % 2 = 0 then f else f + 1

/-- Python `round(x, n)` for `n` decimal places. -/
def pyRound (x : ℚ) (n : ℕ) : ℚ :=
  mkRat (roundHalfEvenFrac (x.num * 10 ^ n) x.den) (10 ^ n)

/-- Reciprocal computed on numerator and denominator (used where the
source computes `1.0 / f` with `f > 0`). -/
def qinv (x : ℚ) : ℚ := mkRat (x.den : ℤ) x.num.toNat

/-- `MISSING_VALS = {99.0, 999.0, 9999.0, 99.00, 999.00}` from the source
(as rationals the last two duplicate the first two). -/
def MISSING_VALS : List ℚ := [99, 999, 9999, 99, 999]

/-- `safe_float(val, missing_extra)`: convert to float, returning `None`
for NDBC missing sentinels.  `missing_extra = []` models the default
`None` argument (both are falsy, so the extra check is skipped). -/
def safe_float (val : String) (missing_extra : List ℚ) : Option ℚ :=
  match pyFloat? val with
  | none => none
  | some f =>
    if f ∈ MISSING_VALS then none
    else if missing_extra ≠ [] ∧ f ∈ missing_extra then none
    else some f

/-- `safe_float_wave(val)`: float conversion for wave heights — also
treat 9.9 (here `mkRat 99 10`) as missing, reject > 8 m. -/
def safe_float_wave (val : String) : Option ℚ :=
  match safe_float val [mkRat 99 10] with
  | some f => if f > 8 then none else some f
  | none => none

/-- One buoy observation snapshot (the dict built by `parse_stdmet`). -/
structure Reading where
  time : String
  waveHeight_m : Option ℚ
  dominantPeriod_s : Option ℚ
  avgPeriod_s : Option ℚ
  meanDirection_deg : Option ℚ
  waterTemp_C : Option ℚ
  windSpeed_mps : Option ℚ
  windDir_deg : Option ℚ
  pressure_hPa : Option ℚ
  gust_mps : Option ℚ
  airTemp_C : Option ℚ
deriving Repr, DecidableEq

/-- The timestamp string `f"{row[0]}-{row[1]}-{row[2]}T{row[3]}:{row[4]}Z"`. -/
def mkTimeStr (row : List String) : String :=
  row.getD 0 "" ++ "-" ++ row.getD 1 "" ++ "-" ++ row.getD 2 "" ++ "T" ++
    row.getD 3 "" ++ ":" ++ row.getD 4 "" ++ "Z"

/-- The data row both parsers select: `lines[2].split()` (the line right
after the units line, the newest data row). -/
def selectedRow (lines : List String) : List String :=
  pySplit (lines.getD 2 "")

/-- The `Reading` built from a selected row of ≥ 13 fields. -/
def readingOfRow (row : List String) : Reading :=
  { time := mkTimeStr row
    waveHeight_m := safe_float_wave (row.getD 8 "")
    dominantPeriod_s := safe_float (row.getD 9 "") []
    avgPeriod_s := safe_float (row.getD 10 "") []
    meanDirection_deg := safe_float (row.getD 11 "") []
    waterTemp_C := if row.length > 14 then safe_float (row.getD 14 "") [] else none
    windSpeed_mps := safe_float (row.getD 6 "") []
    windDir_deg := safe_float (row.getD 5 "") []
    pressure_hPa := safe_float (row.getD 12 "") []
    gust_mps := safe_float (row.getD 7 "") []
    airTemp_C := if row.length > 13 then safe_float (row.getD 13 "") [] else none }

/-- `parse_stdmet(text)`: parse standard meteorological data (latest
observation).  Input lines are `text.strip().splitlines()`; line 0 is the
header, line 1 the units, lines 2+ the data rows (newest first).  The
source also computes an unused local `header`; it has no effect and is
omitted. -/
def parse_stdmet (lines : List String) : Option Reading :=
  if lines.length < 3 then none
  else if (selectedRow lines).length < 13 then none
  else some (readingOfRow (selectedRow lines))

/-- One frequency component of the directional spectrum (the dict
appended by `parse_data_spec`). -/
structure SpectralBin where
  freq : ℚ
  period_s : Option ℚ
  energy : ℚ
  direction_deg : ℚ
deriving Repr, DecidableEq

/-- `line.replace("#", "").replace("(", " ").replace(")", " ")`: the
patterns are single characters and the replacements introduce none of
them, so the three sequential replaces equal this one-pass rewrite. -/
def stripMarks (s : String) : String :=
  String.mk (s.data.filterMap fun c =>
    if c = '#' then none
    else if c = '(' ∨ c = ')' then some ' '
    else some c)

/-- The bin dict appended for a triple (frequency, density, direction);
`period = 1.0 / f if f > 0 else None`, and `round(period, 1) if period
else None` (a `None` or zero `period` is falsy). -/
def mkBin (f d dir : ℚ) : SpectralBin :=
  let period : Option ℚ := if f > 0 then some (qinv f) else none
  { freq := pyRound f 4
    period_s :=
      match period with
      | some p => if p = 0 then none else some (pyRound p 1)
      | none => none
    energy := pyRound d 2
    direction_deg := pyRound dir 1 }

/-- Frequency bins recovered from the density source's line 1: strip the
annotation markers, split, skip the five timestamp tokens, and keep only
the tokens `safe_float` accepts (`if f is not None: freqs.append(f)`). -/
def freqsOfTokens (tokens : List String) : List ℚ :=
  tokens.filterMap fun p => safe_float p []

/-- A data-row series: every token after the five timestamp tokens,
converted by `safe_float`, keeping `None` entries. -/
def seriesOfTokens (tokens : List String) : List (Option ℚ) :=
  tokens.map fun v => safe_float v []

/-- The positional combination loop of `parse_data_spec`:
`for i in range(min(...)):` append a bin when all three series hold a
present value at `i`. -/
def mergeBins (freqs : List ℚ) (densities directions : List (Option ℚ)) :
    List SpectralBin :=
  (List.range (min (min freqs.length densities.length) directions.length)).filterMap
    fun i =>
      match densities[i]?, directions[i]?, freqs[i]? with
      | some (some d), some (some dir), some f => some (mkBin f d dir)
      | _, _, _ => none

/-- The frequency series of the density source: line 1 with `#`, `(`,
`)` stripped, split, the five timestamp tokens skipped. -/
def specFreqs (spec_lines : List String) : List ℚ :=
  freqsOfTokens ((pySplit (stripMarks (spec_lines.getD 1 ""))).drop 5)

/-- The density series: the selected data row past its timestamp. -/
def specDensities (spec_lines : List String) : List (Option ℚ) :=
  seriesOfTokens ((selectedRow spec_lines).drop 5)

/-- The direction series: the selected data row past its timestamp. -/
def specDirections (swdir_lines : List String) : List (Option ℚ) :=
  seriesOfTokens ((selectedRow swdir_lines).drop 5)

/-- `parse_data_spec(spec_text, swdir_text)`: parse spectral density +
direction files.  The source's unused locals (`spec_header` from line 0
and `time_str`) have no effect and are omitted. -/
def parse_data_spec (spec_lines swdir_lines : List String) : List SpectralBin :=
  if spec_lines.length < 3 ∨ swdir_lines.length < 3 then []
  else if (selectedRow spec_lines).length < 7 ∨ (selectedRow swdir_lines).length < 7 then []
  else mergeBins (specFreqs spec_lines) (specDensities spec_lines)
    (specDirections swdir_lines)

/-- The cycles probed within one day, most recent first:
`for cycle in ["12", "06", "00"]`. -/
def CYCLES : List String := ["12", "06", "00"]

/-- The day offsets probed, today first: `for day_offset in range(0, 3)`. -/
def DAY_OFFSETS : List ℕ := [0, 1, 2]

/-- All candidate runs in probe order (day offset, issuance cycle). -/
def CANDIDATES : List (ℕ × String) :=
  DAY_OFFSETS.flatMap fun d => CYCLES.map fun c => (d, c)

/-- Ordered candidate sweep with a probe trace: returns the first
candidate `opens` accepts together with the list of candidates probed.
`opens` abstracts `xr.open_dataset` succeeding. -/
def probeList (opens : ℕ × String → Bool) : List (ℕ × String) →
    Option (ℕ × String) × List (ℕ × String)
  | [] => (none, [])
  | p :: rest =>
    if opens p then (some p, [p])
    else
      let q := probeList opens rest
      (q.1, p :: q.2)

/-- The inner `for cycle in ["12", "06", "00"]` loop of `fetch_forecast`:
try each cycle of day `d`, `break` on the first success (`ds` stays
`None` when every cycle raises). -/
def tryCycles (opens : ℕ × String → Bool) (d : ℕ) : List String →
    Option (ℕ × String) × List (ℕ × String)
  | [] => (none, [])
  | c :: rest =>
    if opens (d, c) then (some (d, c), [(d, c)])
    else
      let q := tryCycles opens d rest
      (q.1, (d, c) :: q.2)

/-- The outer `for day_offset in range(0, 3)` loop: move to the next day
only while `ds is None`. -/
def tryDays (opens : ℕ × String → Bool) : List ℕ →
    Option (ℕ × String) × List (ℕ × String)
  | [] => (none, [])
  | d :: rest =>
    match tryCycles opens d CYCLES with
    | (some r, tr) => (some r, tr)
    | (none, tr) =>
      let q := tryDays opens rest
      (q.1, tr ++ q.2)

/-- The run-location sweep of `fetch_forecast`: the first candidate that
opens, or `none` (the `sys.exit(1)` branch) when all fail. -/
def locateRun (opens : ℕ × String → Bool) : Option (ℕ × String) :=
  (tryDays opens DAY_OFFSETS).1

/-- The candidates actually probed by the sweep, in order. -/
def probedRuns (opens : ℕ × String → Bool) : List (ℕ × String) :=
  (tryDays opens DAY_OFFSETS).2

/-- The variable list requested for every forecast hour. -/
def FORECAST_VARS : List String :=
  ["htsgwsfc", "perpwsfc", "dirpwsfc", "wvhgtsfc", "wvpersfc", "wvdirsfc",
   "swell_1", "swper_1", "swdir_1", "swell_2", "swper_2", "swdir_2",
   "wndspdsfc", "wnddirsfc"]

/-- The dataset restricted to the resolved nearest grid cell
(`ds_point`): its time axis, which variables it carries (`var in
ds_point`), and each variable's value per timestamp — `none` models a
NaN reading (`val == val` fails). -/
structure DsPoint where
  times : List String
  hasVar : String → Bool
  value : String → String → Option ℚ

/-- One forecast timestep: the timestamp plus the variable map `rec`
(insertion-ordered, as a Python dict). -/
structure ForecastHour where
  time : String
  vals : List (String × Option ℚ)
deriving Repr, DecidableEq

/-- The per-hour extraction loop body: for each requested variable
present in the dataset, store `round(val, 2)`, or `None` for NaN;
absent variables contribute no key. -/
def buildRec (ds : DsPoint) (t : String) : List (String × Option ℚ) :=
  FORECAST_VARS.filterMap fun var =>
    if ds.hasVar var then some (var, (ds.value var t).map fun v => pyRound v 2)
    else none

/-- Python `rec.get(k)` on the variable map: `some w` when key `k` is
stored with value `w` (`w = none` for a stored `None`), `none` when the
key is absent. -/
def recGet (vals : List (String × Option ℚ)) (k : String) : Option (Option ℚ) :=
  match vals with
  | [] => none
  | (a, b) :: t => if k = a then some b else recGet t k

/-- Replace the value stored under `k` (Python `rec[k] = v`). -/
def setKey (vals : List (String × Option ℚ)) (k : String) (v : Option ℚ) :
    List (String × Option ℚ) :=
  vals.map fun p => if p.1 = k then (k, v) else p

/-- `if rec.get("htsgwsfc") and rec["htsgwsfc"] > 8.0: rec["htsgwsfc"] =
None` — `rec.get` is falsy when the key is absent, the value is `None`,
or the value is `0.0`. -/
def validateWave (vals : List (String × Option ℚ)) : List (String × Option ℚ) :=
  match recGet vals "htsgwsfc" with
  | some (some v) => if v ≠ 0 ∧ v > 8 then setKey vals "htsgwsfc" none else vals
  | _ => vals

/-- The `hours` list built by `fetch_forecast` from the resolved grid
point: one validated record per timestamp. -/
def extract_hours (ds : DsPoint) : List ForecastHour :=
  ds.times.map fun t => { time := t, vals := validateWave (buildRec ds t) }

/-- The forecast pipeline after the `xarray` import succeeds: locate a
run (all nine candidates failing aborts with no partial output —
`sys.exit(1)`, modelled as `none`), then extract the hours from the
dataset the winning candidate opens. -/
def fetch_forecast_model (opens : ℕ × String → Bool)
    (dsAt : ℕ × String → DsPoint) : Option (List ForecastHour) :=
  match locateRun opens with
  | none => none
  | some r => some (extract_hours (dsAt r))

example : pyFloat? "9.9" = some (mkRat 99 10) := by decide
example : pyFloat? "999" = some 999 := by decide
example : pyFloat? "MM" = none := by decide
example : pyFloat? "" = none := by decide
example : pyFloat? "-71.6" = some (mkRat (-716) 10) := by decide
example : pyFloat? "1e2" = some 100 := by decide
example : safe_float "42.5" [] = some (mkRat 425 10) := by decide
example : safe_float "999.00" [] = none := by decide
example : safe_float_wave "9.9" = none := by decide
example : safe_float_wave "8.5" = none := by decide
example : safe_float_wave "2.5" = some (mkRat 25 10) := by decide
example : pyRound (qinv (mkRat 325 10000)) 1 = mkRat 308 10 := by decide
example : pySplit " 2024 01  02 03 04 " = ["2024", "01", "02", "03", "04"] := by decide
example :
    extract_hours ⟨["t0"], fun v => v == "perpwsfc", fun _ _ => some 999⟩ =
      [⟨"t0", [("perpwsfc", some 999)]⟩] := by decide
example :
    parse_data_spec
      ["#spec", "#YY MM DD hh mm 0.0325(a) 0.0375(b)", "2024 01 02 03 04 1.2 0.8"]
      ["#swdir", "#units", "2024 01 02 03 04 70.0 80.0"] =
    [⟨mkRat 325 10000, some (mkRat 308 10), mkRat 12 10, 70⟩,
     ⟨mkRat 375 10000, some (mkRat 267 10), mkRat 8 10, 80⟩] := by decide
example :
    (parse_stdmet ["#h", "#u", "2024 01 02 03 04 180 5.0 7.0 2.5 10 8 170 1013 12.5 11.0"]).map
      Reading.waveHeight_m = some (some (mkRat 25 10)) := by decide

/-! ## Helper lemmas -/

theorem length_filterMap_eq_countP {α β : Type} (f : α → Option β) (l : List α) :
    (l.filterMap f).length = l.countP fun a => (f a).isSome := by
  induction l with
  | nil => rfl
  | cons a t ih =>
    cases h : f a <;> simp [List.filterMap_cons, h, List.countP_cons, ih]

theorem qinv_eq_one_div (x : ℚ) (hx : 0 < x) : qinv x = 1 / x := by
  have hnum : (0 : ℤ) < x.num := Rat.num_pos.mpr hx
  have hcast : ((x.num.toNat : ℕ) : ℚ) = (x.num : ℚ) := by
    exact_mod_cast congrArg (fun z : ℤ => (z : ℚ)) (Int.toNat_of_nonneg hnum.le)
  have hx' : x ≠ 0 := ne_of_gt hx
  have hnq : ((x.num : ℚ)) ≠ 0 := by
    exact_mod_cast hnum.ne'
  rw [qinv, Rat.mkRat_eq_div, hcast, div_eq_div_iff hnq hx', one_mul]
  calc (x.den : ℚ) * x = x.den * ((x.num : ℚ) / x.den) := by rw [Rat.num_div_den]
    _ = x.num := by
        have hden : ((x.den : ℚ)) ≠ 0 := Nat.cast_ne_zero.mpr x.den_nz
        field_simp

theorem mem_MISSING_VALS (g : ℚ) :
    g ∈ MISSING_VALS ↔ (g = 99 ∨ g = 999 ∨ g = 9999) := by
  simp [MISSING_VALS]
  tauto

theorem find_first_of_append {α : Type} (p : α → Bool) (l1 l2 : List α) (r : α)
    (h : l1.find? p = some r) : (l1 ++ l2).find? p = some r := by
  induction l1 with
  | nil => simp [List.find?] at h
  | cons a t ih =>
    by_cases ha : p a
    · rw [List.find?_cons_of_pos _ ha] at h
      rw [List.cons_append, List.find?_cons_of_pos _ ha]
      exact h
    · rw [List.find?_cons_of_neg _ ha] at h
      rw [List.cons_append, List.find?_cons_of_neg _ ha]
      exact ih h

theorem find_none_append {α : Type} (p : α → Bool) (l1 l2 : List α)
    (h : l1.find? p = none) : (l1 ++ l2).find? p = l2.find? p := by
  induction l1 with
  | nil => rfl
  | cons a t ih =>
    have ha : ¬ p a := by
      intro hpa
      rw [List.find?_cons_of_pos _ hpa] at h
      cases h
    rw [List.find?_cons_of_neg _ ha] at h
    rw [List.cons_append, List.find?_cons_of_neg _ ha]
    exact ih h

theorem takeWhile_not_of_find_none {α : Type} (p : α → Bool) (l : List α)
    (h : l.find? p = none) : l.takeWhile (fun a => !p a) = l := by
  induction l with
  | nil => rfl
  | cons a t ih =>
    have ha : ¬ p a := by
      intro hpa
      rw [List.find?_cons_of_pos _ hpa] at h
      cases h
    rw [List.find?_cons_of_neg _ ha] at h
    simp [List.takeWhile_cons, ha, ih h]

theorem takeWhile_not_append_of_some {α : Type} (p : α → Bool) (l1 l2 : List α)
    (r : α) (h : l1.find? p = some r) :
    (l1 ++ l2).takeWhile (fun a => !p a) = l1.takeWhile (fun a => !p a) := by
  induction l1 with
  | nil => simp [List.find?] at h
  | cons a t ih =>
    by_cases ha : p a
    · simp [List.takeWhile_cons, ha]
    · rw [List.find?_cons_of_neg _ ha] at h
      simp [List.takeWhile_cons, ha, ih h]

theorem takeWhile_not_append_of_none {α : Type} (p : α → Bool) (l1 l2 : List α)
    (h : l1.find? p = none) :
    (l1 ++ l2).takeWhile (fun a => !p a) = l1 ++ l2.takeWhile (fun a => !p a) := by
  induction l1 with
  | nil => rfl
  | cons a t ih =>
    have ha : ¬ p a := by
      intro hpa
      rw [List.find?_cons_of_pos _ hpa] at h
      cases h
    rw [List.find?_cons_of_neg _ ha] at h
    simp [List.takeWhile_cons, ha, ih h]

theorem tryCycles_spec (opens : ℕ × String → Bool) (d : ℕ) (cs : List String) :
    tryCycles opens d cs =
      ((cs.map fun c => (d, c)).find? opens,
       (cs.map fun c => (d, c)).takeWhile (fun q => !opens q) ++
         ((cs.map fun c => (d, c)).find? opens).toList) := by
  induction cs with
  | nil => rfl
  | cons c t ih =>
    by_cases hc : opens (d, c)
    · simp [tryCycles, hc, List.find?_cons_of_pos _ hc, List.takeWhile_cons]
    · simp [tryCycles, hc, List.find?_cons_of_neg _ hc, List.takeWhile_cons, ih]

theorem tryDays_spec (opens : ℕ × String → Bool) (ds : List ℕ) :
    tryDays opens ds =
      ((ds.flatMap fun d => CYCLES.map fun c => (d, c)).find? opens,
       (ds.flatMap fun d => CYCLES.map fun c => (d, c)).takeWhile (fun q => !opens q) ++
         ((ds.flatMap fun d => CYCLES.map fun c => (d, c)).find? opens).toList) := by
  induction ds with
  | nil => rfl
  | cons d rest ih =>
    rw [List.flatMap_cons]
    show (match tryCycles opens d CYCLES with
      | (some r, tr) => (some r, tr)
      | (none, tr) =>
        ((tryDays opens rest).1, tr ++ (tryDays opens rest).2)) = _
    rw [tryCycles_spec, ih]
    cases hf : (CYCLES.map fun c => (d, c)).find? opens with
    | some r =>
      simp only [hf]
      rw [find_first_of_append _ _ _ _ hf, takeWhile_not_append_of_some _ _ _ _ hf]
    | none =>
      simp only [hf, Option.toList_none, List.append_nil]
      rw [find_none_append _ _ _ hf, takeWhile_not_append_of_none _ _ _ hf,
        List.append_assoc, takeWhile_not_of_find_none _ _ hf]

theorem recGet_filterMap_ite (ks : List String) (P : String → Bool)
    (F : String → Option ℚ) (var : String) (h1 : var ∈ ks) (h2 : P var = true) :
    recGet (ks.filterMap fun k => if P k then some (k, F k) else none) var =
      some (F var) := by
  induction ks with
  | nil => cases h1
  | cons a t ih =>
    rcases List.mem_cons.mp h1 with rfl | hmem
    · simp [List.filterMap_cons, h2, recGet]
    · by_cases hva : var = a
      · subst hva
        simp [List.filterMap_cons, h2, recGet]
      · by_cases hpa : P a
        · rw [List.filterMap_cons, if_pos hpa, recGet, if_neg hva]
          exact ih hmem
        · rw [List.filterMap_cons, if_neg hpa]
          exact ih hmem

theorem recGet_setKey_ne (vals : List (String × Option ℚ)) (k k' : String)
    (v : Option ℚ) (h : k' ≠ k) : recGet (setKey vals k v) k' = recGet vals k' := by
  induction vals with
  | nil => rfl
  | cons p t ih =>
    obtain ⟨a, b⟩ := p
    rw [show setKey ((a, b) :: t) k v =
      (if a = k then (k, v) else (a, b)) :: setKey t k v from rfl]
    by_cases hp : a = k
    · rw [if_pos hp, recGet, if_neg (hp ▸ h), recGet, if_neg fun he => h (he.trans hp)]
      exact ih
    · rw [if_neg hp, recGet, recGet]
      by_cases hk : k' = a
      · rw [if_pos hk, if_pos hk]
      · rw [if_neg hk, if_neg hk]
        exact ih

theorem recGet_setKey_self (vals : List (String × Option ℚ)) (k : String)
    (v : Option ℚ) (hmem : (recGet vals k).isSome) :
    recGet (setKey vals k v) k = some v := by
  induction vals with
  | nil => cases hmem
  | cons p t ih =>
    obtain ⟨a, b⟩ := p
    rw [show setKey ((a, b) :: t) k v =
      (if a = k then (k, v) else (a, b)) :: setKey t k v from rfl]
    by_cases hp : a = k
    · rw [if_pos hp, recGet, if_pos rfl]
    · rw [if_neg hp, recGet, if_neg fun he => hp he.symm]
      rw [recGet, if_neg fun he => hp he.symm] at hmem
      exact ih hmem

theorem recGet_validateWave_ne (vals : List (String × Option ℚ)) (var : String)
    (h : var ≠ "htsgwsfc") : recGet (validateWave vals) var = recGet vals var := by
  unfold validateWave
  cases hl : recGet vals "htsgwsfc" with
  | none => rfl
  | some ov =>
    cases ov with
    | none => rfl
    | some v =>
      show recGet (if v ≠ 0 ∧ v > 8 then setKey vals "htsgwsfc" none else vals) var = _
      split_ifs with hc
      · exact recGet_setKey_ne _ _ _ _ h
      · rfl

theorem validateWave_le (vals : List (String × Option ℚ)) (x : ℚ)
    (hx : recGet (validateWave vals) "htsgwsfc" = some (some x)) : x ≤ 8 := by
  unfold validateWave at hx
  cases hl : recGet vals "htsgwsfc" with
  | none =>
    rw [hl] at hx
    rw [hl] at hx
    cases hx
  | some ov =>
    cases ov with
    | none =>
      rw [hl] at hx
      rw [hl] at hx
      cases hx
    | some v =>
      rw [hl] at hx
      replace hx : recGet (if v ≠ 0 ∧ v > 8 then setKey vals "htsgwsfc" none else vals)
        "htsgwsfc" = some (some x) := hx
      split_ifs at hx with hc
      · rw [recGet_setKey_self _ _ _ (by simp [hl])] at hx
        cases hx
      · rw [hl, Option.some_inj, Option.some_inj] at hx
        subst hx
        rcases not_and_or.mp hc with h0 | h8
        · rw [not_not.mp h0]
          norm_num
        · exact le_of_not_lt h8

theorem safe_float_wave_le (s : String) (x : ℚ) (h : safe_float_wave s = some x) :
    x ≤ 8 := by
  unfold safe_float_wave at h
  rcases hsf : safe_float s [mkRat 99 10] with _ | g <;> rw [hsf] at h
  · cases h
  · replace h : (if g > 8 then none else some g) = some x := h
    by_cases hg : g > 8
    · rw [if_pos hg] at h
      cases h
    · rw [if_neg hg, Option.some_inj] at h
      subst h
      exact le_of_not_lt hg

/-! ## Claim theorems -/

/-- Claim C3: `safe_float` returns absent when numeric conversion fails,
and on success returns absent exactly when the value equals 99, 999, or
9999 or lies in the caller-supplied extra sentinel set; every other
converted value is returned unchanged.  The wave-height variant
additionally treats 9.9 as a sentinel. -/
theorem C3_prop :
    (∀ s extra f, safe_float s extra = some f ↔
       (pyFloat? s = some f ∧ ¬(f = 99 ∨ f = 999 ∨ f = 9999) ∧ f ∉ extra)) ∧
    (∀ s, pyFloat? s = some (mkRat 99 10) → safe_float_wave s = none) := by
  constructor
  · intro s extra f
    rcases hp : pyFloat? s with _ | g
    · simp [safe_float, hp]
    · simp only [safe_float, hp, Option.some_inj]
      by_cases h1 : g ∈ MISSING_VALS
      · rw [if_pos h1]
        constructor
        · intro h
          exact absurd h (by simp)
        · rintro ⟨hgf, hnot, -⟩
          exact absurd ((mem_MISSING_VALS g).mp h1) (hgf ▸ hnot)
      · rw [if_neg h1]
        by_cases h2 : extra ≠ [] ∧ g ∈ extra
        · rw [if_pos h2]
          constructor
          · intro h
            exact absurd h (by simp)
          · rintro ⟨hgf, -, hni⟩
            exact absurd (hgf ▸ h2.2) hni
        · rw [if_neg h2]
          constructor
          · intro h
            rw [Option.some_inj] at h
            subst h
            refine ⟨rfl, fun hor => h1 ((mem_MISSING_VALS g).mpr hor),
              fun hin => h2 ⟨List.ne_nil_of_mem hin, hin⟩⟩
          · rintro ⟨hgf, -, -⟩
            rw [Option.some_inj, hgf]
  · intro s hs
    have h1 : (mkRat 99 10 : ℚ) ∉ MISSING_VALS := by decide
    have h2 : (mkRat 99 10 : ℚ) ∈ [mkRat 99 10] := by decide
    simp [safe_float_wave, safe_float, hs, h1, h2]

/-- Claim C3 witness: a plain value passes through unchanged, and the
wave-height variant nulls 9.9. -/
theorem C3_witness :
    safe_float "42.5" [] = some (mkRat 425 10) ∧ safe_float_wave "9.9" = none :=
  ⟨(C3_prop.1 "42.5" [] (mkRat 425 10)).mpr (by decide),
   C3_prop.2 "9.9" (by decide)⟩

/-- Claim C8: the merged spectrum length never exceeds the minimum of
the lengths of the parsed frequency, density, and direction series. -/
theorem C8_prop (sl dl : List String) :
    (parse_data_spec sl dl).length ≤
      min (min (specFreqs sl).length (specDensities sl).length)
        (specDirections dl).length := by
  unfold parse_data_spec
  split_ifs with h1 h2
  · simp
  · simp
  · unfold mergeBins
    exact (List.length_filterMap_le _ _).trans (le_of_eq (List.length_range _))

/-- Claim C9: record-level parse failures degrade silently:
`parse_stdmet` returns absent on fewer than 3 lines or a selected row of
fewer than 13 fields; `parse_data_spec` returns the empty list on fewer
than 3 lines in either input or a selected row of fewer than 7 fields. -/
theorem C9_prop :
    (∀ lines, lines.length < 3 → parse_stdmet lines = none) ∧
    (∀ lines, (selectedRow lines).length < 13 → parse_stdmet lines = none) ∧
    (∀ sl dl, sl.length < 3 ∨ dl.length < 3 → parse_data_spec sl dl = []) ∧
    (∀ sl dl, (selectedRow sl).length < 7 ∨ (selectedRow dl).length < 7 →
      parse_data_spec sl dl = []) := by
  refine ⟨fun lines h => ?_, fun lines h => ?_, fun sl dl h => ?_, fun sl dl h => ?_⟩
  · simp [parse_stdmet, h]
  · unfold parse_stdmet
    split_ifs with h1
    · rfl
    · rfl
  · simp [parse_data_spec, h]
  · unfold parse_data_spec
    split_ifs with h1
    · rfl
    · rfl

/-- Claim C9 witness: concrete degraded inputs for each failure mode. -/
theorem C9_witness :
    parse_stdmet ["only", "two"] = none ∧
    parse_stdmet ["#h", "#u", "2024 01 02 03 04"] = none ∧
    parse_data_spec ["x"] ["#a", "#b", "c"] = [] ∧
    parse_data_spec ["#a", "#b", "1 2 3"] ["#a", "#b", "1 2 3 4 5 6 7"] = [] :=
  ⟨C9_prop.1 _ (by decide), C9_prop.2.1 _ (by decide),
   C9_prop.2.2.1 _ _ (by decide), C9_prop.2.2.2 _ _ (by decide)⟩

/-- Claim C10: a header token that fails conversion or equals a sentinel
is dropped from the frequency series entirely (not recorded as absent),
so the frequencies after it shift one position earlier. -/
theorem C10_prop (pre suf : List String) (bad : String)
    (h : safe_float bad [] = none) :
    freqsOfTokens (pre ++ bad :: suf) = freqsOfTokens pre ++ freqsOfTokens suf ∧
    (∀ j, (freqsOfTokens (pre ++ bad :: suf))[(freqsOfTokens pre).length + j]? =
      (freqsOfTokens suf)[j]?) ∧
    (freqsOfTokens (pre ++ bad :: suf)).length =
      (freqsOfTokens pre).length + (freqsOfTokens suf).length := by
  have key : freqsOfTokens (pre ++ bad :: suf) = freqsOfTokens pre ++ freqsOfTokens suf := by
    simp [freqsOfTokens, List.filterMap_append, List.filterMap_cons, h]
  refine ⟨key, fun j => ?_, by simp [key]⟩
  rw [key, List.getElem?_append_right (Nat.le_add_right _ _)]
  congr 1
  omega

/-- Claim C1 counterexample: with a sentinel (999.0) in the density row
at index 1, the merger does not stop there — it also emits the bin built
from index 2, so iteration skips past the gap and continues. -/
theorem C1_counterexample :
    specDensities
      ["#spec", "#YY MM DD hh mm 0.0325(a) 0.0375(b) 0.0425(c)",
       "2024 01 02 03 04 1.2 999.0 0.8"] =
      [some (mkRat 12 10), none, some (mkRat 8 10)] ∧
    parse_data_spec
      ["#spec", "#YY MM DD hh mm 0.0325(a) 0.0375(b) 0.0425(c)",
       "2024 01 02 03 04 1.2 999.0 0.8"]
      ["#swdir", "#units", "2024 01 02 03 04 70.0 75.0 80.0"] =
      [⟨mkRat 325 10000, some (mkRat 308 10), mkRat 12 10, 70⟩,
       ⟨mkRat 425 10000, some (mkRat 235 10), mkRat 8 10, 80⟩] := by
  constructor
  · decide
  · decide

/-- Claim C1 (amended): the merged output contains a bin for index `i`
exactly when `i` is below the minimum of the three series lengths and
all three series hold a present value at `i`; an absent value removes
only its own index — iteration continues and bins from later indices are
still emitted (no stop at the first gap). -/
theorem C1_prop (freqs : List ℚ) (dens dirs : List (Option ℚ)) :
    (∀ b, b ∈ mergeBins freqs dens dirs ↔
      ∃ i f d dir, i < min (min freqs.length dens.length) dirs.length ∧
        freqs[i]? = some f ∧ dens[i]? = some (some d) ∧ dirs[i]? = some (some dir) ∧
        b = mkBin f d dir) ∧
    (mergeBins freqs dens dirs).length =
      ((List.range (min (min freqs.length dens.length) dirs.length)).filter
        fun i => (dens.getD i none).isSome && (dirs.getD i none).isSome).length := by
  constructor
  · intro b
    unfold mergeBins
    rw [List.mem_filterMap]
    constructor
    · rintro ⟨i, hi, hbody⟩
      rw [List.mem_range] at hi
      rcases hD : dens[i]? with _ | od <;> rw [hD] at hbody
      · exact absurd hbody (by simp)
      rcases hR : dirs[i]? with _ | odir <;> rw [hR] at hbody
      · exact absurd hbody (by simp)
      rcases hF : freqs[i]? with _ | f <;> rw [hF] at hbody
      · rcases od with _ | d <;> rcases odir with _ | dir <;> exact absurd hbody (by simp)
      rcases od with _ | d <;> rcases odir with _ | dir
      · exact absurd hbody (by simp)
      · exact absurd hbody (by simp)
      · exact absurd hbody (by simp)
      · rw [Option.some_inj] at hbody
        exact ⟨i, f, d, dir, hi, hF, hD, hR, hbody.symm⟩
    · rintro ⟨i, f, d, dir, hi, hF, hD, hR, rfl⟩
      refine ⟨i, List.mem_range.mpr hi, ?_⟩
      rw [hD, hR, hF]
  · unfold mergeBins
    rw [length_filterMap_eq_countP, List.countP_eq_length_filter]
    congr 1
    apply List.filter_congr
    intro i hi
    rw [List.mem_range] at hi
    have hfl : i < freqs.length :=
      lt_of_lt_of_le hi ((min_le_left _ _).trans (min_le_left _ _))
    have hdl : i < dens.length :=
      lt_of_lt_of_le hi ((min_le_left _ _).trans (min_le_right _ _))
    have hrl : i < dirs.length := lt_of_lt_of_le hi (min_le_right _ _)
    rw [List.getD_eq_getElem?_getD, List.getD_eq_getElem?_getD,
      List.getElem?_eq_getElem hfl, List.getElem?_eq_getElem hdl,
      List.getElem?_eq_getElem hrl]
    rcases hdd : dens[i] with _ | d <;> rcases hrr : dirs[i] with _ | r <;>
      simp [hdd, hrr]

/-- Claim C1 witness: the characterization instantiated on concrete
series containing a gap: index 0 is emitted and the length counts only
the gap-free indices. -/
theorem C1_witness :
    mkBin 2 1 70 ∈ mergeBins [2, 3] [some 1, none] [some 70, some 75] ∧
    (mergeBins [2, 3] [some 1, none] [some 70, some 75]).length =
      ((List.range (min (min 2 2) 2)).filter
        fun i => (([some 1, none] : List (Option ℚ)).getD i none).isSome &&
          (([some (70 : ℚ), some 75] : List (Option ℚ)).getD i none).isSome).length :=
  ⟨((C1_prop [2, 3] [some 1, none] [some 70, some 75]).1 (mkBin 2 1 70)).mpr
      ⟨0, 2, 1, 70, by decide, by decide, by decide, by decide, rfl⟩,
   (C1_prop [2, 3] [some 1, none] [some 70, some 75]).2⟩

/-- Claim C2 counterexample: on a standard-meteorology text with two
data rows, the emitted `Reading` takes its fields from the row
immediately following the units line (line index 2, the *first* data
row) — the row the claim says is skipped — not from the second data row
at index 3. -/
theorem C2_counterexample :
    (parse_stdmet
      ["#header", "#units",
       "2024 01 02 03 04 180 5.0 7.0 2.5 10 8 170 1013",
       "2023 05 06 07 08 190 6.0 8.0 3.5 11 9 160 1014"]).map Reading.time =
      some "2024-01-02T03:04Z" ∧
    (parse_stdmet
      ["#header", "#units",
       "2024 01 02 03 04 180 5.0 7.0 2.5 10 8 170 1013",
       "2023 05 06 07 08 190 6.0 8.0 3.5 11 9 160 1014"]).map Reading.time ≠
      some "2023-05-06T07:08Z" := by
  constructor
  · decide
  · decide

/-- Claim C2 (amended): `parse_stdmet` selects the line at zero-based
index 2, which is the *first* data row — the row immediately following
the units line is used, not skipped; the `Reading`'s fields come from
that row and every later line is ignored. -/
theorem C2_prop (l0 l1 l2 : String) (rest : List String) :
    selectedRow (l0 :: l1 :: l2 :: rest) = pySplit l2 ∧
    parse_stdmet (l0 :: l1 :: l2 :: rest) = parse_stdmet [l0, l1, l2] ∧
    (parse_stdmet (l0 :: l1 :: l2 :: rest)).map Reading.time =
      (if (pySplit l2).length < 13 then none else some (mkTimeStr (pySplit l2))) := by
  have h3 : ¬ (l0 :: l1 :: l2 :: rest).length < 3 := by simp
  have h3' : ¬ ([l0, l1, l2] : List String).length < 3 := by simp
  refine ⟨rfl, ?_, ?_⟩
  · unfold parse_stdmet
    rw [if_neg h3, if_neg h3']
    rfl
  · unfold parse_stdmet
    rw [if_neg h3]
    rw [show selectedRow (l0 :: l1 :: l2 :: rest) = pySplit l2 from rfl]
    split_ifs
    · rfl
    · rfl

/-- Claim C4 counterexample: an extracted forecast wave height of 8.004
(= `mkRat 2001 250`) is strictly greater than 8.0, yet the produced
`ForecastHour` keeps it, stored as 8.0 — the code rounds to 2 decimals
*before* the > 8 check, so the value is effectively clamped rather than
nulled, contradicting the claim. -/
theorem C4_counterexample :
    mkRat 2001 250 > 8 ∧
    extract_hours ⟨["t0"], fun v => v == "htsgwsfc", fun _ _ => some (mkRat 2001 250)⟩ =
      [⟨"t0", [("htsgwsfc", some 8)]⟩] := by
  constructor
  · decide
  · decide

/-- Claim C4 (amended): on the buoy path every successfully parsed wave
height strictly greater than 8.0 is nulled (sentinel or not); on the
forecast path the > 8.0 check is applied to the value *after* rounding
to 2 decimals; consequently, in every produced `Reading` and every
produced `ForecastHour`, a present wave height is ≤ 8.0. -/
theorem C4_prop :
    (∀ s f, pyFloat? s = some f → f > 8 → safe_float_wave s = none) ∧
    (∀ s x, safe_float_wave s = some x → x ≤ 8) ∧
    (∀ lines r, parse_stdmet lines = some r → ∀ x, r.waveHeight_m = some x → x ≤ 8) ∧
    (∀ ds h, h ∈ extract_hours ds → ∀ x,
      recGet h.vals "htsgwsfc" = some (some x) → x ≤ 8) := by
  refine ⟨fun s f hp hf => ?_, safe_float_wave_le, fun lines r hpr x hx => ?_,
    fun ds h hmem x hx => ?_⟩
  · have hsf : safe_float s [mkRat 99 10] = none ∨ safe_float s [mkRat 99 10] = some f := by
      simp only [safe_float, hp]
      split_ifs <;> simp
    rcases hsf with h | h <;> simp [safe_float_wave, h, hf]
  · unfold parse_stdmet at hpr
    split_ifs at hpr
    rw [Option.some_inj] at hpr
    subst hpr
    exact safe_float_wave_le _ _ hx
  · unfold extract_hours at hmem
    obtain ⟨t, -, rfl⟩ := List.mem_map.mp hmem
    exact validateWave_le _ _ hx

/-- Claim C4 witness: a non-sentinel 8.5 is nulled on the buoy path; a
parsed 2.5 and a forecast value of 5 are within the ceiling. -/
theorem C4_witness :
    safe_float_wave "8.5" = none ∧ mkRat 25 10 ≤ 8 ∧ (5 : ℚ) ≤ 8 :=
  ⟨C4_prop.1 "8.5" (mkRat 85 10) (by decide) (by decide),
   C4_prop.2.1 "2.5" (mkRat 25 10) (by decide),
   C4_prop.2.2.2 ⟨["t0"], fun v => v == "htsgwsfc", fun _ _ => some 5⟩
     ⟨"t0", [("htsgwsfc", some 5)]⟩ (by decide) 5 (by decide)⟩

/-- Claim C6 counterexample: the forecast path applies no sentinel
normalization — a `perpwsfc` value equal to the sentinel 999 is kept in
the produced `ForecastHour` rather than normalized to absent. -/
theorem C6_counterexample :
    (999 : ℚ) ∈ MISSING_VALS ∧
    extract_hours ⟨["t0"], fun v => v == "perpwsfc", fun _ _ => some 999⟩ =
      [⟨"t0", [("perpwsfc", some 999)]⟩] := by
  constructor
  · decide
  · decide

/-- Claim C6 (amended): the grid extractor does not reuse the buoy
sentinel rules; for every timestamp and requested variable present in
the dataset other than the primary wave height, the stored value is
exactly the raw value rounded to 2 decimals (sentinels included), with
only NaN mapped to absent; the > 8 plausibility rule is applied solely
to `htsgwsfc`. -/
theorem C6_prop (ds : DsPoint) (t var : String)
    (ht : t ∈ ds.times) (hv : var ∈ FORECAST_VARS) (hd : ds.hasVar var = true)
    (hne : var ≠ "htsgwsfc") :
    (⟨t, validateWave (buildRec ds t)⟩ : ForecastHour) ∈ extract_hours ds ∧
    recGet (validateWave (buildRec ds t)) var =
      some ((ds.value var t).map fun v => pyRound v 2) := by
  constructor
  · exact List.mem_map.mpr ⟨t, ht, rfl⟩
  · rw [recGet_validateWave_ne _ _ hne]
    exact recGet_filterMap_ite _ _ _ _ hv hd

/-- Claim C6 witness: the sentinel-999 hour of the counterexample input
is reached through the amended characterization. -/
theorem C6_witness :
    (⟨"t0", validateWave (buildRec
        ⟨["t0"], fun v => v == "perpwsfc", fun _ _ => some 999⟩ "t0")⟩ : ForecastHour) ∈
      extract_hours ⟨["t0"], fun v => v == "perpwsfc", fun _ _ => some 999⟩ ∧
    recGet (validateWave (buildRec
        ⟨["t0"], fun v => v == "perpwsfc", fun _ _ => some 999⟩ "t0")) "perpwsfc" =
      some (some (pyRound 999 2)) :=
  C6_prop ⟨["t0"], fun v => v == "perpwsfc", fun _ _ => some 999⟩ "t0" "perpwsfc"
    (by decide) (by decide) (by decide) (by decide)

/-- Claim C5: the locator probes the nine candidates in exactly the
order (day0,12),(day0,06),(day0,00),(day1,12),…,(day2,00), returns the
first that opens without probing any later candidate, and fails —
aborting the forecast path with no partial output — iff all nine fail. -/
theorem C5_prop (opens : ℕ × String → Bool) :
    CANDIDATES = [(0, "12"), (0, "06"), (0, "00"), (1, "12"), (1, "06"), (1, "00"),
      (2, "12"), (2, "06"), (2, "00")] ∧
    locateRun opens = CANDIDATES.find? opens ∧
    probedRuns opens =
      CANDIDATES.takeWhile (fun q => !opens q) ++ (CANDIDATES.find? opens).toList ∧
    (locateRun opens = none ↔ ∀ q ∈ CANDIDATES, opens q = false) ∧
    (∀ dsAt, fetch_forecast_model opens dsAt = none ↔ locateRun opens = none) := by
  have hc : CANDIDATES = DAY_OFFSETS.flatMap fun d => CYCLES.map fun c => (d, c) := rfl
  refine ⟨by decide, ?_, ?_, ?_, fun dsAt => ?_⟩
  · rw [locateRun, tryDays_spec, hc]
  · rw [probedRuns, tryDays_spec, hc]
  · rw [locateRun, tryDays_spec, ← hc]
    simp [List.find?_eq_none]
  · unfold fetch_forecast_model
    cases h : locateRun opens <;> simp [h]

/-- Claim C2 witness: the row-selection facts instantiated on a concrete
four-line feed. -/
theorem C2_witness :
    selectedRow ["#h", "#u",
        "2024 01 02 03 04 180 5.0 7.0 2.5 10 8 170 1013", "x"] =
      pySplit "2024 01 02 03 04 180 5.0 7.0 2.5 10 8 170 1013" ∧
    parse_stdmet ["#h", "#u",
        "2024 01 02 03 04 180 5.0 7.0 2.5 10 8 170 1013", "x"] =
      parse_stdmet ["#h", "#u", "2024 01 02 03 04 180 5.0 7.0 2.5 10 8 170 1013"] ∧
    (parse_stdmet ["#h", "#u",
        "2024 01 02 03 04 180 5.0 7.0 2.5 10 8 170 1013", "x"]).map Reading.time =
      (if (pySplit "2024 01 02 03 04 180 5.0 7.0 2.5 10 8 170 1013").length < 13
        then none
        else some (mkTimeStr (pySplit "2024 01 02 03 04 180 5.0 7.0 2.5 10 8 170 1013"))) :=
  C2_prop "#h" "#u" "2024 01 02 03 04 180 5.0 7.0 2.5 10 8 170 1013" ["x"]

/-- Claim C5 witness: the sweep characterization instantiated on an
oracle accepting only (day1, cycle 06). -/
theorem C5_witness :
    locateRun (fun q => q == (1, "06")) =
      CANDIDATES.find? (fun q => q == (1, "06")) ∧
    probedRuns (fun q => q == (1, "06")) =
      CANDIDATES.takeWhile (fun q => !(q == (1, "06"))) ++
        (CANDIDATES.find? (fun q => q == (1, "06"))).toList :=
  ⟨(C5_prop (fun q => q == (1, "06"))).2.1,
   (C5_prop (fun q => q == (1, "06"))).2.2.1⟩

/-- Claim C8 witness: the length bound instantiated on the spec's
scenario input. -/
theorem C8_witness :
    (parse_data_spec
      ["#spec", "#YY MM DD hh mm 0.0325(a) 0.0375(b)", "2024 01 02 03 04 1.2 0.8"]
      ["#swdir", "#units", "2024 01 02 03 04 70.0 80.0"]).length ≤
      min (min (specFreqs ["#spec", "#YY MM DD hh mm 0.0325(a) 0.0375(b)",
            "2024 01 02 03 04 1.2 0.8"]).length
          (specDensities ["#spec", "#YY MM DD hh mm 0.0325(a) 0.0375(b)",
            "2024 01 02 03 04 1.2 0.8"]).length)
        (specDirections ["#swdir", "#units", "2024 01 02 03 04 70.0 80.0"]).length :=
  C8_prop
    ["#spec", "#YY MM DD hh mm 0.0325(a) 0.0375(b)", "2024 01 02 03 04 1.2 0.8"]
    ["#swdir", "#units", "2024 01 02 03 04 70.0 80.0"]

/-- Claim C7: every emitted `SpectralBin` carries a derived period equal
to `1/frequency` rounded to 1 decimal when the bin's (source) frequency
is positive and absent otherwise, with frequency rounded to 4 decimals,
energy to 2, and direction to 1. -/
theorem C7_prop :
    (∀ f d dir, mkBin f d dir =
      { freq := pyRound f 4
        period_s := if f > 0 then some (pyRound (1 / f) 1) else none
        energy := pyRound d 2
        direction_deg := pyRound dir 1 }) ∧
    (∀ sl dl b, b ∈ parse_data_spec sl dl → ∃ f d dir, b = mkBin f d dir) := by
  constructor
  · intro f d dir
    unfold mkBin
    by_cases hf : f > 0
    · have h1 : qinv f = 1 / f := qinv_eq_one_div f hf
      have h2 : ¬ (qinv f = 0) := by
        rw [h1]
        exact one_div_ne_zero (ne_of_gt hf)
      simp [hf, h1, h2, ne_of_gt hf]
    · simp [hf]
  · intro sl dl b hb
    unfold parse_data_spec at hb
    split_ifs at hb
    · simp at hb
    · simp at hb
    · unfold mergeBins at hb
      obtain ⟨i, hi, hbody⟩ := List.mem_filterMap.mp hb
      rcases hD : (specDensities sl)[i]? with _ | od <;> rw [hD] at hbody
      · exact absurd hbody (by simp)
      rcases hR : (specDirections dl)[i]? with _ | odir <;> rw [hR] at hbody
      · exact absurd hbody (by simp)
      rcases hF : (specFreqs sl)[i]? with _ | f <;> rw [hF] at hbody
      · rcases od with _ | d <;> rcases odir with _ | dir <;> exact absurd hbody (by simp)
      rcases od with _ | d <;> rcases odir with _ | dir
      · exact absurd hbody (by simp)
      · exact absurd hbody (by simp)
      · exact absurd hbody (by simp)
      · rw [Option.some_inj] at hbody
        exact ⟨f, d, dir, hbody.symm⟩

/-- Claim C7 witness: a bin emitted on the spec's scenario input is of
the characterized form. -/
theorem C7_witness :
    ∃ f d dir,
      (⟨mkRat 325 10000, some (mkRat 308 10), mkRat 12 10, 70⟩ : SpectralBin) =
        mkBin f d dir :=
  C7_prop.2
    ["#spec", "#YY MM DD hh mm 0.0325(a) 0.0375(b)", "2024 01 02 03 04 1.2 0.8"]
    ["#swdir", "#units", "2024 01 02 03 04 70.0 80.0"] _ (by decide)

/-- Claim C10 witness: an unparseable token between two frequencies is
dropped and the later frequency moves up. -/
theorem C10_witness :
    freqsOfTokens ["0.0325", "MM", "0.0425"] =
      freqsOfTokens ["0.0325"] ++ freqsOfTokens ["0.0425"] :=
  (C10_prop ["0.0325"] ["0.0425"] "MM" (by decide)).1

end SurfCheck
